import Mathlib

/-!
Shallow embedding of `src/pdf_artwork_extractor.py` (pymupdf-based gallery
catalog artwork extractor).  Text is modelled as `List Char`; Python's
compiled regular expressions are modelled by an executable leftmost-search
backtracking matcher; file/image I/O is modelled away (an artwork keeps the
selected `ImageCandidate` in place of the written image path / base64 blob,
and document opening is a parameter that may fail, standing for
`pymupdf.open` raising an exception).
-/

namespace PdfArtwork

abbrev Str := List Char

/-- Python whitespace class (`\s`, `str.strip()` default) restricted to ASCII. -/
def pySpace (c : Char) : Bool :=
  c = ' ' || c = '\t' || c = '\n' || c = '\r' || c = '\x0b' || c = '\x0c'

/-- Python word character (`\w`) restricted to ASCII: letters, digits, underscore. -/
def wordChar (c : Char) : Bool := c.isAlpha || c.isDigit || c = '_'

/-- `str.strip()`: drop leading and trailing whitespace. -/
def strip (s : Str) : Str :=
  ((s.dropWhile pySpace).reverse.dropWhile pySpace).reverse

/-- `str.isdigit()` (ASCII): non-empty and all characters are digits. -/
def isDigits (s : Str) : Bool := !s.isEmpty && s.all (·.isDigit)

/-- `str.lower()` (ASCII). -/
def lowerStr (s : Str) : Str := s.map Char.toLower

/-- Worker for `str.split(sep)` with a non-empty literal separator:
splits on each leftmost non-overlapping occurrence.  `fuel` bounds the
recursion (it starts at `s.length + 1`, which always suffices). -/
def splitSepGo (sep : Str) : Nat → Str → Str → List Str
  | 0, acc, rest => [acc.reverse ++ rest]
  | fuel + 1, acc, s =>
    if !sep.isEmpty && sep.isPrefixOf s then
      acc.reverse :: splitSepGo sep fuel [] (s.drop sep.length)
    else
      match s with
      | [] => [acc.reverse]
      | c :: rest => splitSepGo sep fuel (c :: acc) rest

/-- `text.split(sep)` for a non-empty literal separator. -/
def splitSep (sep : Str) (s : Str) : List Str :=
  splitSepGo sep (s.length + 1) [] s

/-!  A tiny backtracking regex engine.  A matcher maps an input suffix to the
list of possible remainders after a match, in Python's backtracking
preference order (greedy quantifiers longest-first, alternatives in written
order).  `re.search` preference = leftmost start position, then this order. -/

abbrev Rx := Str → List Str

def rxSeq (p q : Rx) : Rx := fun s => (p s).flatMap q

def rxAlt (p q : Rx) : Rx := fun s => p s ++ q s

def rxChar (f : Char → Bool) : Rx := fun s =>
  match s with
  | [] => []
  | c :: r => if f c then [r] else []

/-- Greedy `?` on an arbitrary matcher: with the group first, then without. -/
def rxOpt (p : Rx) : Rx := fun s => p s ++ [s]

/-- Greedy `*` over a character class: longest run first. -/
def rxStarClass (f : Char → Bool) : Rx := fun s =>
  let n := (s.takeWhile f).length
  (List.range (n + 1)).map (fun i => s.drop (n - i))

/-- Greedy `+` over a character class: longest run first, at least one. -/
def rxPlusClass (f : Char → Bool) : Rx := fun s =>
  let n := (s.takeWhile f).length
  (List.range n).map (fun i => s.drop (n - i))

/-- Greedy `{lo,hi}` over a character class. -/
def rxRepClass (f : Char → Bool) (lo hi : Nat) : Rx := fun s =>
  let n := min hi (s.takeWhile f).length
  if n < lo then [] else (List.range (n - lo + 1)).map (fun i => s.drop (n - i))

/-- Case-sensitive literal. -/
def rxLit (lit : Str) : Rx := fun s =>
  if lit.isPrefixOf s then [s.drop lit.length] else []

/-- Case-insensitive literal (`lit` given in lowercase). -/
def rxLitCI (lit : Str) : Rx := fun s =>
  let pre := s.take lit.length
  if pre.length = lit.length && lowerStr pre == lit then [s.drop lit.length] else []

/-- Trailing `\b` after a word character: next char absent or non-word. -/
def rxBoundAfter : Rx := fun s =>
  match s with
  | [] => [[]]
  | c :: _ => if wordChar c then [] else [s]

/-- Number of consecutive `,\d\d\d` groups at the head of `s`
(for the greedy `(?:,\d{3})*` of the price pattern). -/
def commaGroupCount : Nat → Str → Nat
  | 0, _ => 0
  | fuel + 1, s =>
    match s with
    | ',' :: a :: b :: c :: _ =>
      if a.isDigit && b.isDigit && c.isDigit then
        1 + commaGroupCount fuel (s.drop 4)
      else 0
    | _ => 0

/-- Greedy `(?:,\d{3})*`: most groups first. -/
def rxCommaGroups : Rx := fun s =>
  let n := commaGroupCount s.length s
  (List.range (n + 1)).map (fun i => s.drop (4 * (n - i)))

/-- Leftmost `re.search`.  `needLB` encodes a leading `\b` for a pattern whose
first element is a word-class character (both the year and dimensions
patterns): the previous character, if any, must be non-word.  Returns
`group(0)` of the first match. -/
def searchGo (m : Rx) (needLB : Bool) : Option Char → Str → Option Str
  | prev, [] =>
    let lbOk := !needLB || (match prev with | none => true | some c => !wordChar c)
    if lbOk && !(m []).isEmpty then some [] else none
  | prev, s@(c :: rest) =>
    let lbOk := !needLB || (match prev with | none => true | some p => !wordChar p)
    match (if lbOk then m s else []) with
    | r :: _ => some (s.take (s.length - r.length))
    | [] => searchGo m needLB (some c) rest

def rxSearch (m : Rx) (needLB : Bool) (s : Str) : Option Str :=
  searchGo m needLB none s

/-! The three compiled patterns of `PDFArtworkExtractor.__init__`. -/

/-- `\b(19|20)\d{2}\b` (after the leading boundary, handled by the search). -/
def yearMatcher : Rx :=
  rxSeq (rxAlt (rxLit ['1', '9']) (rxLit ['2', '0']))
    (rxSeq (rxChar (·.isDigit)) (rxSeq (rxChar (·.isDigit)) rxBoundAfter))

/-- `\d+(\.\d+)?` -/
def rxNumber : Rx :=
  rxSeq (rxPlusClass (·.isDigit))
    (rxOpt (rxSeq (rxChar (· = '.')) (rxPlusClass (·.isDigit))))

def rxSpaces : Rx := rxStarClass pySpace

/-- `[x×]` under `re.IGNORECASE` (so `X` matches too). -/
def rxXSep : Rx := rxChar (fun c => c = 'x' || c = 'X' || c = '×')

/-- `(cm|in|inches|mm)` case-insensitive, in the written alternation order. -/
def rxUnit : Rx :=
  rxAlt (rxLitCI ['c', 'm'])
    (rxAlt (rxLitCI ['i', 'n'])
      (rxAlt (rxLitCI ['i', 'n', 'c', 'h', 'e', 's']) (rxLitCI ['m', 'm'])))

/-- `\b\d+(\.\d+)?\s*[x×]\s*\d+(\.\d+)?(\s*[x×]\s*\d+(\.\d+)?)?\s*(cm|in|inches|mm)\b`,
`re.IGNORECASE` (after the leading boundary, handled by the search). -/
def dimsMatcher : Rx :=
  rxSeq rxNumber
    (rxSeq rxSpaces
      (rxSeq rxXSep
        (rxSeq rxSpaces
          (rxSeq rxNumber
            (rxSeq (rxOpt (rxSeq rxSpaces (rxSeq rxXSep (rxSeq rxSpaces rxNumber))))
              (rxSeq rxSpaces (rxSeq rxUnit rxBoundAfter)))))))

/-- `(?:\.\d+)?` -/
def rxFrac : Rx := rxOpt (rxSeq (rxChar (· = '.')) (rxPlusClass (·.isDigit)))

/-- `\$\s*\d{1,3}(?:,\d{3})*(?:\.\d+)?|\d{1,3}(?:,\d{3})*(?:\.\d+)?\s*(?:USD|EUR|GBP)`,
`re.IGNORECASE`, no word boundaries. -/
def priceMatcher : Rx :=
  rxAlt
    (rxSeq (rxChar (· = '$'))
      (rxSeq rxSpaces
        (rxSeq (rxRepClass (·.isDigit) 1 3) (rxSeq rxCommaGroups rxFrac))))
    (rxSeq (rxRepClass (·.isDigit) 1 3)
      (rxSeq rxCommaGroups
        (rxSeq rxFrac
          (rxSeq rxSpaces
            (rxAlt (rxLitCI ['u', 's', 'd'])
              (rxAlt (rxLitCI ['e', 'u', 'r']) (rxLitCI ['g', 'b', 'p'])))))))

/-- `self.year_pattern.search(s)`, returning `group(0)`. -/
def yearSearch (s : Str) : Option Str := rxSearch yearMatcher true s

/-- `self.dimensions_pattern.search(s)`, returning `group(0)`. -/
def dimSearch (s : Str) : Option Str := rxSearch dimsMatcher true s

/-- `self.price_pattern.search(s)`, returning `group(0)`. -/
def priceSearch (s : Str) : Option Str := rxSearch priceMatcher false s

/-- One image from `page.get_images(full=True)` + `doc.extract_image(xref)`:
the width/height in pixels and the xref.  The binary payload and extension
only feed the image-file writing, which is I/O outside the embedding. -/
structure ImageCandidate where
  xref : Nat
  width : Nat
  height : Nat
  deriving DecidableEq

/-- The `Artwork` dataclass.  `image` stands for the persisted
`image_path` / `image_data` pair (both derived from the same candidate). -/
structure Artwork where
  title : Str := []
  artist : Str := []
  year : Str := []
  dimensions : Str := []
  medium : Str := []
  price : Option Str := none
  image : Option ImageCandidate := none
  page_number : Nat := 0
  confidence_score : ℚ := 0
  deriving DecidableEq

/-- `sum(1 for f in [title, artist, year, dimensions, medium] if f)`. -/
def fieldsFound (a : Artwork) : Nat :=
  ([a.title, a.artist, a.year, a.dimensions, a.medium].filter (fun f => !f.isEmpty)).length

def metadata_indicators : List Str :=
  ["page", "copyright", "©", "all rights", "gallery",
   "contact", "email", "phone", "website", "www"].map String.toList

/-- `is_likely_metadata`. -/
def is_likely_metadata (text : Str) : Bool :=
  metadata_indicators.any (fun ind => decide (ind <:+: lowerStr text))

/-- The artist/title scan of `parse_artwork_linebreak_format` over
`lines[:5]`, with the `found_artist` / `found_title` flags; the final
`if found_artist and found_title: break` is an early return. -/
def scanArtistTitle : List Str → Artwork → Bool → Bool → Artwork × Bool × Bool
  | [], a, fa, ft => (a, fa, ft)
  | line :: rest, a, fa, ft =>
    if line.length < 3 || isDigits line then
      scanArtistTitle rest a fa ft
    else if !fa && !is_likely_metadata line then
      scanArtistTitle rest { a with artist := line } true ft
    else if fa && !ft && !is_likely_metadata line then
      scanArtistTitle rest { a with title := line } fa true
    else if fa && ft then (a, fa, ft)
    else scanArtistTitle rest a fa ft

/-- The `if not artwork.year:` block (shared by both strategies). -/
def updYear (a : Artwork) (s : Str) : Artwork :=
  if a.year.isEmpty then
    match yearSearch s with
    | some m => { a with year := m }
    | none => a
  else a

/-- The `if not artwork.dimensions:` block (shared by both strategies). -/
def updDimensions (a : Artwork) (s : Str) : Artwork :=
  if a.dimensions.isEmpty then
    match dimSearch s with
    | some m => { a with dimensions := m }
    | none => a
  else a

/-- The `if not artwork.price:` block (shared by both strategies). -/
def updPrice (a : Artwork) (s : Str) : Artwork :=
  if a.price.isNone then
    match priceSearch s with
    | some m => { a with price := some m }
    | none => a
  else a

/-- The medium block of `parse_artwork_linebreak_format` (it also checks the
line differs from the already-assigned artist and title). -/
def updMediumLine (a : Artwork) (line : Str) : Artwork :=
  if a.medium.isEmpty && !is_likely_metadata line && 5 < line.length then
    if (yearSearch line).isNone && (dimSearch line).isNone && (priceSearch line).isNone then
      if line != a.artist && line != a.title then { a with medium := line } else a
    else a
  else a

/-- The medium block of `parse_artwork_inline_format` (no artist/title
comparison, unlike Strategy A's). -/
def updMediumPart (a : Artwork) (part : Str) : Artwork :=
  if a.medium.isEmpty && !is_likely_metadata part && 5 < part.length then
    if (yearSearch part).isNone && (dimSearch part).isNone && (priceSearch part).isNone then
      { a with medium := part }
    else a
  else a

/-- One iteration of the year/dimensions/price/medium scan of
`parse_artwork_linebreak_format` (over all lines; the loop re-strips the
line and skips it when empty). -/
def lineFieldStep (a : Artwork) (line0 : Str) : Artwork :=
  let line := strip line0
  if line.isEmpty then a
  else updMediumLine (updPrice (updDimensions (updYear a line) line) line) line

/-- `parse_artwork_linebreak_format`: returns the updated record (the Python
method mutates `artwork` in place) and its boolean result.
`fields_found / 5.0` is exact rational division, written `Rat.divInt` (the
kernel-computable form of `(fields_found : ℚ) / 5`), and the `0.6` threshold
is `Rat.divInt 6 10`. -/
def parse_artwork_linebreak_format (text : Str) (artwork : Artwork) : Artwork × Bool :=
  let lines := ((splitSep ['\n'] text).map strip).filter (fun l => !l.isEmpty)
  let scanned := scanArtistTitle (lines.take 5) artwork false false
  let a := lines.foldl lineFieldStep scanned.1
  let fields_found := fieldsFound a
  let a := { a with confidence_score := Rat.divInt fields_found 5 }
  (a, decide (Rat.divInt 6 10 < a.confidence_score))

/-- One iteration of the year/dimensions/price/medium scan of
`parse_artwork_inline_format` over `parts[2:]` (no stripping here — parts
are already stripped and non-empty). -/
def partFieldStep (a : Artwork) (part : Str) : Artwork :=
  updMediumPart (updPrice (updDimensions (updYear a part) part) part) part

/-- `if not artwork.artist: artwork.artist = parts[0]`. -/
def updArtistFirst (a : Artwork) (parts : List Str) : Artwork :=
  if a.artist.isEmpty then { a with artist := parts.getD 0 [] } else a

/-- `if not artwork.title: artwork.title = parts[1]`. -/
def updTitleSecond (a : Artwork) (parts : List Str) : Artwork :=
  if a.title.isEmpty then { a with title := parts.getD 1 [] } else a

/-- One separator attempt of `parse_artwork_inline_format`: the loop body for
a single `separator`.  Returns the (possibly mutated) record and whether the
attempt cleared the confidence threshold.  With fewer than 3 parts the record
is untouched (the `if len(parts) >= 3` body is skipped). -/
def inlineAttempt (separator : Str) (text : Str) (artwork : Artwork) : Artwork × Bool :=
  let parts := ((splitSep separator text).map strip).filter (fun p => !p.isEmpty)
  if 3 ≤ parts.length then
    let a := updTitleSecond (updArtistFirst artwork parts) parts
    let a := (parts.drop 2).foldl partFieldStep a
    let fields_found := fieldsFound a
    let a := { a with confidence_score := Rat.divInt fields_found 5 }
    (a, decide (Rat.divInt 6 10 < a.confidence_score))
  else (artwork, false)

/-- `self.separators = [',', '|', '  ', '\n']`. -/
def separators : List Str := [[','], ['|'], [' ', ' '], ['\n']]

/-- The separator loop of `parse_artwork_inline_format`: on success return
immediately; on failure continue with the mutated record. -/
def inlineGo (text : Str) : List Str → Artwork → Artwork × Bool
  | [], a => (a, false)
  | sep :: rest, a =>
    let step := inlineAttempt sep text a
    if step.2 then (step.1, true) else inlineGo text rest step.1

/-- `parse_artwork_inline_format`. -/
def parse_artwork_inline_format (text : Str) (artwork : Artwork) : Artwork × Bool :=
  inlineGo text separators artwork

/-- The image persistence block of `extract_artwork_info_from_text`:
with `SAVE_IMAGES = True`, an available image is written to disk and stored
on the record (as `image_path` and base64 `image_data`); the file write
itself is I/O, so the embedding records the chosen candidate. -/
def attachImage (a : Artwork) (image : Option ImageCandidate) : Artwork :=
  match image with
  | some img => { a with image := some img }
  | none => a

/-- `extract_artwork_info_from_text`: fresh record, Strategy A `or`
Strategy B on the same (mutated) record, `None` if both fail. -/
def extract_artwork_info_from_text (text : Str) (page_num : Nat)
    (image : Option ImageCandidate) : Option Artwork :=
  let artwork : Artwork := { page_number := page_num + 1 }
  let stepA := parse_artwork_linebreak_format text artwork
  if stepA.2 then some (attachImage stepA.1 image)
  else
    let stepB := parse_artwork_inline_format text stepA.1
    if stepB.2 then some (attachImage stepB.1 image) else none

/-- Instrumented `extract_artwork_info_from_text`: also reports whether
Strategy B (`parse_artwork_inline_format`) was invoked. -/
def extract_artwork_info_from_text_traced (text : Str) (page_num : Nat)
    (image : Option ImageCandidate) : Option Artwork × Bool :=
  let artwork : Artwork := { page_number := page_num + 1 }
  let stepA := parse_artwork_linebreak_format text artwork
  if stepA.2 then (some (attachImage stepA.1 image), false)
  else
    let stepB := parse_artwork_inline_format text stepA.1
    (if stepB.2 then some (attachImage stepB.1 image) else none, true)

/-- One page of the document: `page.get_text()` and the raw
`get_images(full=True)` + `extract_image` results. -/
structure Page where
  text : Str
  images : List ImageCandidate

/-- Pixel area, the sort key of `extract_images`. -/
def area (i : ImageCandidate) : Nat := i.width * i.height

/-- Insert into a descending-by-area list, before the first element of equal
or smaller area (so that, inserting right-to-left, earlier elements of the
original list come first among equal areas — a stable sort, like `list.sort`). -/
def insertByAreaDesc (x : ImageCandidate) : List ImageCandidate → List ImageCandidate
  | [] => [x]
  | y :: ys => if area y ≤ area x then x :: y :: ys else y :: insertByAreaDesc x ys

/-- Stable sort, descending by pixel area:
`images.sort(key=lambda x: x["width"] * x["height"], reverse=True)`. -/
def sortByAreaDesc : List ImageCandidate → List ImageCandidate
  | [] => []
  | x :: xs => insertByAreaDesc x (sortByAreaDesc xs)

/-- `extract_images`: keep candidates with both dimensions above 100 px
(in enumeration order), then sort by pixel area, largest first. -/
def extract_images (page : Page) : List ImageCandidate :=
  let images := page.images.filter (fun i => 100 < i.width && 100 < i.height)
  sortByAreaDesc images

/-- `is_main_artwork_page` (the computed `has_price` is unused in the source). -/
def is_main_artwork_page (text : Str) : Bool :=
  let has_dimensions := (dimSearch text).isSome
  let has_year := (yearSearch text).isSome
  let _has_price := (priceSearch text).isSome
  has_dimensions && has_year

/-- `split_page_into_sections`: full page text paired with the first
(largest) image only — `images[:1]`. -/
def split_page_into_sections (page : Page) (images : List ImageCandidate) :
    List (Str × Option ImageCandidate) :=
  let page_text := page.text
  if images.isEmpty then [(page_text, none)]
  else (images.take 1).map (fun image => (page_text, some image))

/-- `process_page`. -/
def process_page (page : Page) (page_num : Nat) : List Artwork :=
  let text := page.text
  let images := extract_images page
  if images.isEmpty || (decide (2000 < text.length) && decide (images.length < 2)) then
    []
  else if images.length == 1 || (decide (0 < images.length) && is_main_artwork_page text) then
    (extract_artwork_info_from_text text page_num images.head?).toList
  else if 1 < images.length then
    (split_page_into_sections page images).filterMap
      (fun sec => extract_artwork_info_from_text sec.1 page_num sec.2)
  else []

/-- Instrumented `process_page`: also reports whether the field extractor
(`extract_artwork_info_from_text`) was invoked at least once. -/
def process_page_traced (page : Page) (page_num : Nat) : List Artwork × Bool :=
  let text := page.text
  let images := extract_images page
  if images.isEmpty || (decide (2000 < text.length) && decide (images.length < 2)) then
    ([], false)
  else if images.length == 1 || (decide (0 < images.length) && is_main_artwork_page text) then
    ((extract_artwork_info_from_text text page_num images.head?).toList, true)
  else if 1 < images.length then
    let sections := split_page_into_sections page images
    (sections.filterMap
      (fun sec => extract_artwork_info_from_text sec.1 page_num sec.2),
     !sections.isEmpty)
  else ([], false)

/-- A document handle: its ordered pages. -/
structure Doc where
  pages : List Page

/-- `extract_all`: `for page_num, page in enumerate(self.doc)`, extending the
record list with each page's results. -/
def extract_all (doc : Doc) : List Artwork :=
  (doc.pages.enum).foldl (fun acc pe => acc ++ process_page pe.2 pe.1) []

/-- `pymupdf.open` raising on an unreadable/corrupt file. -/
inductive DocumentOpenError
  | openFailed
  deriving DecidableEq

/-- `process_pdf_files`, with document opening abstracted as a fallible
collaborator (`pymupdf.open` inside `PDFArtworkExtractor.__init__`).  The
source wraps nothing in try/except: an open failure propagates out of the
loop, modelled by the `Except` monad.  JSON/image writing is I/O and the
function's value is the accumulated `all_artworks`. -/
def process_pdf_files (openDoc : Str → Except DocumentOpenError Doc)
    (file_list : List Str) : Except DocumentOpenError (List Artwork) :=
  file_list.foldlM (fun all_artworks file_path => do
    let doc ← openDoc file_path
    pure (all_artworks ++ extract_all doc)) []

/-! Concrete inputs used to instantiate the theorems: the spec's test
scenarios 1 and 3, a small document and a fallible opening environment. -/

/-- Scenario 1: line-break formatted artwork text. -/
def scenario1Text : Str :=
  "Jane Doe\nSunset Over the Bay\noil on canvas\n24 x 36 in\n2019\n$4,500".toList

/-- Scenario 3: inline comma-separated artwork text, no line breaks. -/
def scenario3Text : Str :=
  "Mary Smith, Blue Horizon, acrylic on canvas, 2021, 30x40 cm".toList

def img500 : ImageCandidate := ⟨7, 500, 500⟩

/-- The record the pipeline extracts from scenario 1 (with `img500`). -/
def scenario1Record : Artwork where
  title := "Sunset Over the Bay".toList
  artist := "Jane Doe".toList
  year := "2019".toList
  dimensions := "24 x 36 in".toList
  medium := "oil on canvas".toList
  price := some ("$4,500".toList)
  image := some img500
  page_number := 1
  confidence_score := 1

/-- The record the pipeline extracts from scenario 3 (no image): note the
`artist` field holds the whole input line, set by Strategy A before it
failed the threshold. -/
def scenario3Record : Artwork where
  title := "Blue Horizon".toList
  artist := scenario3Text
  year := "2021".toList
  dimensions := "30x40 cm".toList
  medium := "acrylic on canvas".toList
  price := none
  image := none
  page_number := 1
  confidence_score := 1

/-- A single-page document whose page is scenario 1 with one 500×500 image. -/
def goodDoc : Doc := ⟨[⟨scenario1Text, [img500]⟩]⟩

/-- An opening environment: `"good"` opens to `goodDoc`, anything else fails. -/
def openEnvEx : Str → Except DocumentOpenError Doc := fun p =>
  if p = "good".toList then Except.ok goodDoc else Except.error DocumentOpenError.openFailed

/-- A page with several images: one below the 100 px threshold, one large,
two of equal area (for the stability instance). -/
def multiImagePage : Page := ⟨[], [⟨1, 200, 200⟩, ⟨2, 300, 300⟩, ⟨3, 200, 200⟩, ⟨4, 90, 500⟩]⟩

/-- A page with text but zero images. -/
def noImagePage : Page := ⟨scenario1Text, []⟩

/-- An inline text whose comma attempt yields 3 parts but only 2 fields:
the attempt fails the threshold yet mutates the record. -/
def c10Text : Str := "aa, bb, cc".toList

/-- The record state after the failed comma attempt on `c10Text`. -/
def c10After : Artwork where
  artist := "aa".toList
  title := "bb".toList
  confidence_score := Rat.divInt 2 5

set_option maxRecDepth 100000

set_option maxHeartbeats 2000000

lemma isEmpty_false_of_ne (l : Str) (h : ¬l = []) : l.isEmpty = false := by
  cases l with
  | nil => exact absurd rfl h
  | cons c t => rfl

lemma fieldsFound_set_confidence (a : Artwork) (c : ℚ) :
    fieldsFound { a with confidence_score := c } = fieldsFound a := rfl

lemma fieldsFound_le_five (a : Artwork) : fieldsFound a ≤ 5 := by
  have h := List.length_filter_le (fun f : Str => !f.isEmpty)
    [a.title, a.artist, a.year, a.dimensions, a.medium]
  simpa [fieldsFound] using h

lemma attachImage_keeps (a : Artwork) (img : Option ImageCandidate) :
    (attachImage a img).confidence_score = a.confidence_score
    ∧ fieldsFound (attachImage a img) = fieldsFound a
    ∧ (attachImage a img).artist = a.artist := by
  cases img <;> exact ⟨rfl, rfl, rfl⟩

lemma updYear_artist (a : Artwork) (s : Str) : (updYear a s).artist = a.artist := by
  unfold updYear; (repeat' split) <;> rfl

lemma updYear_title (a : Artwork) (s : Str) : (updYear a s).title = a.title := by
  unfold updYear; (repeat' split) <;> rfl

lemma updYear_dimensions (a : Artwork) (s : Str) :
    (updYear a s).dimensions = a.dimensions := by
  unfold updYear; (repeat' split) <;> rfl

lemma updYear_medium (a : Artwork) (s : Str) : (updYear a s).medium = a.medium := by
  unfold updYear; (repeat' split) <;> rfl

lemma updYear_price (a : Artwork) (s : Str) : (updYear a s).price = a.price := by
  unfold updYear; (repeat' split) <;> rfl

lemma updYear_keeps (a : Artwork) (s : Str) (h : ¬a.year = []) :
    (updYear a s).year = a.year := by
  unfold updYear
  rw [isEmpty_false_of_ne _ h]
  rfl

lemma updDimensions_artist (a : Artwork) (s : Str) :
    (updDimensions a s).artist = a.artist := by
  unfold updDimensions; (repeat' split) <;> rfl

lemma updDimensions_title (a : Artwork) (s : Str) :
    (updDimensions a s).title = a.title := by
  unfold updDimensions; (repeat' split) <;> rfl

lemma updDimensions_year (a : Artwork) (s : Str) :
    (updDimensions a s).year = a.year := by
  unfold updDimensions; (repeat' split) <;> rfl

lemma updDimensions_medium (a : Artwork) (s : Str) :
    (updDimensions a s).medium = a.medium := by
  unfold updDimensions; (repeat' split) <;> rfl

lemma updDimensions_price (a : Artwork) (s : Str) :
    (updDimensions a s).price = a.price := by
  unfold updDimensions; (repeat' split) <;> rfl

lemma updDimensions_keeps (a : Artwork) (s : Str) (h : ¬a.dimensions = []) :
    (updDimensions a s).dimensions = a.dimensions := by
  unfold updDimensions
  rw [isEmpty_false_of_ne _ h]
  rfl

lemma updPrice_artist (a : Artwork) (s : Str) : (updPrice a s).artist = a.artist := by
  unfold updPrice; (repeat' split) <;> rfl

lemma updPrice_title (a : Artwork) (s : Str) : (updPrice a s).title = a.title := by
  unfold updPrice; (repeat' split) <;> rfl

lemma updPrice_year (a : Artwork) (s : Str) : (updPrice a s).year = a.year := by
  unfold updPrice; (repeat' split) <;> rfl

lemma updPrice_dimensions (a : Artwork) (s : Str) :
    (updPrice a s).dimensions = a.dimensions := by
  unfold updPrice; (repeat' split) <;> rfl

lemma updPrice_medium (a : Artwork) (s : Str) : (updPrice a s).medium = a.medium := by
  unfold updPrice; (repeat' split) <;> rfl

lemma updPrice_keeps (a : Artwork) (s : Str) (h : a.price.isSome = true) :
    (updPrice a s).price = a.price := by
  obtain ⟨p, hp⟩ := Option.isSome_iff_exists.mp h
  simp [updPrice, hp]

lemma updMediumLine_artist (a : Artwork) (s : Str) :
    (updMediumLine a s).artist = a.artist := by
  unfold updMediumLine; (repeat' split) <;> rfl

lemma updMediumLine_title (a : Artwork) (s : Str) :
    (updMediumLine a s).title = a.title := by
  unfold updMediumLine; (repeat' split) <;> rfl

lemma updMediumLine_year (a : Artwork) (s : Str) :
    (updMediumLine a s).year = a.year := by
  unfold updMediumLine; (repeat' split) <;> rfl

lemma updMediumLine_dimensions (a : Artwork) (s : Str) :
    (updMediumLine a s).dimensions = a.dimensions := by
  unfold updMediumLine; (repeat' split) <;> rfl

lemma updMediumLine_price (a : Artwork) (s : Str) :
    (updMediumLine a s).price = a.price := by
  unfold updMediumLine; (repeat' split) <;> rfl

lemma updMediumLine_keeps (a : Artwork) (s : Str) (h : ¬a.medium = []) :
    (updMediumLine a s).medium = a.medium := by
  unfold updMediumLine
  rw [isEmpty_false_of_ne _ h]
  rfl

lemma updMediumPart_artist (a : Artwork) (s : Str) :
    (updMediumPart a s).artist = a.artist := by
  unfold updMediumPart; (repeat' split) <;> rfl

lemma updMediumPart_title (a : Artwork) (s : Str) :
    (updMediumPart a s).title = a.title := by
  unfold updMediumPart; (repeat' split) <;> rfl

lemma updMediumPart_year (a : Artwork) (s : Str) :
    (updMediumPart a s).year = a.year := by
  unfold updMediumPart; (repeat' split) <;> rfl

lemma updMediumPart_dimensions (a : Artwork) (s : Str) :
    (updMediumPart a s).dimensions = a.dimensions := by
  unfold updMediumPart; (repeat' split) <;> rfl

lemma updMediumPart_price (a : Artwork) (s : Str) :
    (updMediumPart a s).price = a.price := by
  unfold updMediumPart; (repeat' split) <;> rfl

lemma updMediumPart_keeps (a : Artwork) (s : Str) (h : ¬a.medium = []) :
    (updMediumPart a s).medium = a.medium := by
  unfold updMediumPart
  rw [isEmpty_false_of_ne _ h]
  rfl

lemma updArtistFirst_artist (a : Artwork) (parts : List Str) :
    (updArtistFirst a parts).artist
      = if a.artist.isEmpty then parts.getD 0 [] else a.artist := by
  unfold updArtistFirst
  by_cases h : a.artist.isEmpty <;> simp [h]

lemma updArtistFirst_misc (a : Artwork) (parts : List Str) :
    (updArtistFirst a parts).title = a.title
    ∧ (updArtistFirst a parts).year = a.year
    ∧ (updArtistFirst a parts).dimensions = a.dimensions
    ∧ (updArtistFirst a parts).medium = a.medium
    ∧ (updArtistFirst a parts).price = a.price := by
  unfold updArtistFirst
  split <;> exact ⟨rfl, rfl, rfl, rfl, rfl⟩

lemma updTitleSecond_title (a : Artwork) (parts : List Str) :
    (updTitleSecond a parts).title
      = if a.title.isEmpty then parts.getD 1 [] else a.title := by
  unfold updTitleSecond
  by_cases h : a.title.isEmpty <;> simp [h]

lemma updTitleSecond_misc (a : Artwork) (parts : List Str) :
    (updTitleSecond a parts).artist = a.artist
    ∧ (updTitleSecond a parts).year = a.year
    ∧ (updTitleSecond a parts).dimensions = a.dimensions
    ∧ (updTitleSecond a parts).medium = a.medium
    ∧ (updTitleSecond a parts).price = a.price := by
  unfold updTitleSecond
  split <;> exact ⟨rfl, rfl, rfl, rfl, rfl⟩

lemma lineFieldStep_artist (a : Artwork) (l : Str) :
    (lineFieldStep a l).artist = a.artist := by
  unfold lineFieldStep
  dsimp only
  split
  · rfl
  · rw [updMediumLine_artist, updPrice_artist, updDimensions_artist, updYear_artist]

lemma lineFieldStep_title (a : Artwork) (l : Str) :
    (lineFieldStep a l).title = a.title := by
  unfold lineFieldStep
  dsimp only
  split
  · rfl
  · rw [updMediumLine_title, updPrice_title, updDimensions_title, updYear_title]

lemma lineFieldStep_year (a : Artwork) (l : Str) (h : ¬a.year = []) :
    (lineFieldStep a l).year = a.year := by
  unfold lineFieldStep
  dsimp only
  split
  · rfl
  · rw [updMediumLine_year, updPrice_year, updDimensions_year, updYear_keeps _ _ h]

lemma lineFieldStep_dimensions (a : Artwork) (l : Str) (h : ¬a.dimensions = []) :
    (lineFieldStep a l).dimensions = a.dimensions := by
  unfold lineFieldStep
  dsimp only
  split
  · rfl
  · rw [updMediumLine_dimensions, updPrice_dimensions,
        updDimensions_keeps _ _ (by rw [updYear_dimensions]; exact h), updYear_dimensions]

lemma lineFieldStep_price (a : Artwork) (l : Str) (h : a.price.isSome = true) :
    (lineFieldStep a l).price = a.price := by
  unfold lineFieldStep
  dsimp only
  split
  · rfl
  · rw [updMediumLine_price,
        updPrice_keeps _ _ (by rw [updDimensions_price, updYear_price]; exact h),
        updDimensions_price, updYear_price]

lemma lineFieldStep_medium (a : Artwork) (l : Str) (h : ¬a.medium = []) :
    (lineFieldStep a l).medium = a.medium := by
  unfold lineFieldStep
  dsimp only
  split
  · rfl
  · rw [updMediumLine_keeps _ _
          (by rw [updPrice_medium, updDimensions_medium, updYear_medium]; exact h),
        updPrice_medium, updDimensions_medium, updYear_medium]

lemma partFieldStep_artist (a : Artwork) (p : Str) :
    (partFieldStep a p).artist = a.artist := by
  unfold partFieldStep
  rw [updMediumPart_artist, updPrice_artist, updDimensions_artist, updYear_artist]

lemma partFieldStep_title (a : Artwork) (p : Str) :
    (partFieldStep a p).title = a.title := by
  unfold partFieldStep
  rw [updMediumPart_title, updPrice_title, updDimensions_title, updYear_title]

lemma partFieldStep_year (a : Artwork) (p : Str) (h : ¬a.year = []) :
    (partFieldStep a p).year = a.year := by
  unfold partFieldStep
  rw [updMediumPart_year, updPrice_year, updDimensions_year, updYear_keeps _ _ h]

lemma partFieldStep_dimensions (a : Artwork) (p : Str) (h : ¬a.dimensions = []) :
    (partFieldStep a p).dimensions = a.dimensions := by
  unfold partFieldStep
  rw [updMediumPart_dimensions, updPrice_dimensions,
      updDimensions_keeps _ _ (by rw [updYear_dimensions]; exact h), updYear_dimensions]

lemma partFieldStep_price (a : Artwork) (p : Str) (h : a.price.isSome = true) :
    (partFieldStep a p).price = a.price := by
  unfold partFieldStep
  rw [updMediumPart_price,
      updPrice_keeps _ _ (by rw [updDimensions_price, updYear_price]; exact h),
      updDimensions_price, updYear_price]

lemma partFieldStep_medium (a : Artwork) (p : Str) (h : ¬a.medium = []) :
    (partFieldStep a p).medium = a.medium := by
  unfold partFieldStep
  rw [updMediumPart_keeps _ _
        (by rw [updPrice_medium, updDimensions_medium, updYear_medium]; exact h),
      updPrice_medium, updDimensions_medium, updYear_medium]

lemma foldl_lineFieldStep_pres : ∀ (ls : List Str) (a : Artwork),
    ((ls.foldl lineFieldStep a).artist = a.artist)
    ∧ ((ls.foldl lineFieldStep a).title = a.title)
    ∧ (¬a.year = [] → (ls.foldl lineFieldStep a).year = a.year)
    ∧ (¬a.dimensions = [] → (ls.foldl lineFieldStep a).dimensions = a.dimensions)
    ∧ (a.price.isSome = true → (ls.foldl lineFieldStep a).price = a.price)
    ∧ (¬a.medium = [] → (ls.foldl lineFieldStep a).medium = a.medium) := by
  intro ls
  induction ls with
  | nil => exact fun a => ⟨rfl, rfl, fun _ => rfl, fun _ => rfl, fun _ => rfl, fun _ => rfl⟩
  | cons l ls ih =>
    intro a
    obtain ⟨iha, iht, ihy, ihd, ihp, ihm⟩ := ih (lineFieldStep a l)
    rw [List.foldl_cons]
    refine ⟨?_, ?_, ?_, ?_, ?_, ?_⟩
    · rw [iha, lineFieldStep_artist]
    · rw [iht, lineFieldStep_title]
    · intro h
      have h1 := lineFieldStep_year a l h
      rw [ihy (by rw [h1]; exact h), h1]
    · intro h
      have h1 := lineFieldStep_dimensions a l h
      rw [ihd (by rw [h1]; exact h), h1]
    · intro h
      have h1 := lineFieldStep_price a l h
      rw [ihp (by rw [h1]; exact h), h1]
    · intro h
      have h1 := lineFieldStep_medium a l h
      rw [ihm (by rw [h1]; exact h), h1]

lemma foldl_partFieldStep_pres : ∀ (ps : List Str) (a : Artwork),
    ((ps.foldl partFieldStep a).artist = a.artist)
    ∧ ((ps.foldl partFieldStep a).title = a.title)
    ∧ (¬a.year = [] → (ps.foldl partFieldStep a).year = a.year)
    ∧ (¬a.dimensions = [] → (ps.foldl partFieldStep a).dimensions = a.dimensions)
    ∧ (a.price.isSome = true → (ps.foldl partFieldStep a).price = a.price)
    ∧ (¬a.medium = [] → (ps.foldl partFieldStep a).medium = a.medium) := by
  intro ps
  induction ps with
  | nil => exact fun a => ⟨rfl, rfl, fun _ => rfl, fun _ => rfl, fun _ => rfl, fun _ => rfl⟩
  | cons p ps ih =>
    intro a
    obtain ⟨iha, iht, ihy, ihd, ihp, ihm⟩ := ih (partFieldStep a p)
    rw [List.foldl_cons]
    refine ⟨?_, ?_, ?_, ?_, ?_, ?_⟩
    · rw [iha, partFieldStep_artist]
    · rw [iht, partFieldStep_title]
    · intro h
      have h1 := partFieldStep_year a p h
      rw [ihy (by rw [h1]; exact h), h1]
    · intro h
      have h1 := partFieldStep_dimensions a p h
      rw [ihd (by rw [h1]; exact h), h1]
    · intro h
      have h1 := partFieldStep_price a p h
      rw [ihp (by rw [h1]; exact h), h1]
    · intro h
      have h1 := partFieldStep_medium a p h
      rw [ihm (by rw [h1]; exact h), h1]

lemma scanArtistTitle_pres : ∀ (lines : List Str) (a : Artwork) (fa ft : Bool),
    (scanArtistTitle lines a fa ft).1.year = a.year
    ∧ (scanArtistTitle lines a fa ft).1.dimensions = a.dimensions
    ∧ (scanArtistTitle lines a fa ft).1.medium = a.medium
    ∧ (scanArtistTitle lines a fa ft).1.price = a.price
    ∧ (fa = true → (scanArtistTitle lines a fa ft).1.artist = a.artist)
    ∧ (ft = true → (scanArtistTitle lines a fa ft).1.title = a.title) := by
  intro lines
  induction lines with
  | nil => exact fun a fa ft => ⟨rfl, rfl, rfl, rfl, fun _ => rfl, fun _ => rfl⟩
  | cons l ls ih =>
    intro a fa ft
    unfold scanArtistTitle
    split
    · exact ih a fa ft
    · split
      · rename_i h1 h2
        obtain ⟨ihy, ihd, ihm, ihp, iha, iht⟩ := ih { a with artist := l } true ft
        refine ⟨ihy, ihd, ihm, ihp, ?_, iht⟩
        intro hfa
        rw [hfa] at h2
        simp at h2
      · split
        · rename_i h1 h2 h3
          obtain ⟨ihy, ihd, ihm, ihp, iha, iht⟩ := ih { a with title := l } fa true
          refine ⟨ihy, ihd, ihm, ihp, iha, ?_⟩
          intro hft
          rw [hft] at h3
          simp at h3
        · split
          · exact ⟨rfl, rfl, rfl, rfl, fun _ => rfl, fun _ => rfl⟩
          · exact ih a fa ft

lemma updArtistFirst_keeps (a : Artwork) (parts : List Str) (h : ¬a.artist = []) :
    (updArtistFirst a parts).artist = a.artist := by
  rw [updArtistFirst_artist, isEmpty_false_of_ne _ h]
  simp

lemma updTitleSecond_keeps (a : Artwork) (parts : List Str) (h : ¬a.title = []) :
    (updTitleSecond a parts).title = a.title := by
  rw [updTitleSecond_title, isEmpty_false_of_ne _ h]
  simp

lemma inlineAttempt_pres (sep text : Str) (a : Artwork) :
    (¬a.artist = [] → (inlineAttempt sep text a).1.artist = a.artist)
    ∧ (¬a.title = [] → (inlineAttempt sep text a).1.title = a.title)
    ∧ (¬a.year = [] → (inlineAttempt sep text a).1.year = a.year)
    ∧ (¬a.dimensions = [] → (inlineAttempt sep text a).1.dimensions = a.dimensions)
    ∧ (a.price.isSome = true → (inlineAttempt sep text a).1.price = a.price)
    ∧ (¬a.medium = [] → (inlineAttempt sep text a).1.medium = a.medium) := by
  unfold inlineAttempt
  dsimp only
  split
  · refine ⟨?_, ?_, ?_, ?_, ?_, ?_⟩ <;> intro h
    · exact ((foldl_partFieldStep_pres _ _).1).trans
        (((updTitleSecond_misc _ _).1).trans (updArtistFirst_keeps _ _ h))
    · exact ((foldl_partFieldStep_pres _ _).2.1).trans
        ((updTitleSecond_keeps _ _
            (by rw [(updArtistFirst_misc _ _).1]; exact h)).trans
          (updArtistFirst_misc _ _).1)
    · exact ((foldl_partFieldStep_pres _ _).2.2.1
          (by rw [(updTitleSecond_misc _ _).2.1, (updArtistFirst_misc _ _).2.1]; exact h)).trans
        (((updTitleSecond_misc _ _).2.1).trans (updArtistFirst_misc _ _).2.1)
    · exact ((foldl_partFieldStep_pres _ _).2.2.2.1
          (by rw [(updTitleSecond_misc _ _).2.2.1, (updArtistFirst_misc _ _).2.2.1]; exact h)).trans
        (((updTitleSecond_misc _ _).2.2.1).trans (updArtistFirst_misc _ _).2.2.1)
    · exact ((foldl_partFieldStep_pres _ _).2.2.2.2.1
          (by rw [(updTitleSecond_misc _ _).2.2.2.2, (updArtistFirst_misc _ _).2.2.2.2]; exact h)).trans
        (((updTitleSecond_misc _ _).2.2.2.2).trans (updArtistFirst_misc _ _).2.2.2.2)
    · exact ((foldl_partFieldStep_pres _ _).2.2.2.2.2
          (by rw [(updTitleSecond_misc _ _).2.2.2.1, (updArtistFirst_misc _ _).2.2.2.1]; exact h)).trans
        (((updTitleSecond_misc _ _).2.2.2.1).trans (updArtistFirst_misc _ _).2.2.2.1)
  · exact ⟨fun _ => rfl, fun _ => rfl, fun _ => rfl, fun _ => rfl, fun _ => rfl, fun _ => rfl⟩

lemma inlineGo_cons (text sep : Str) (rest : List Str) (a : Artwork) :
    inlineGo text (sep :: rest) a
      = (if (inlineAttempt sep text a).2
         then ((inlineAttempt sep text a).1, true)
         else inlineGo text rest (inlineAttempt sep text a).1) := rfl

lemma inlineGo_pres : ∀ (seps : List Str) (text : Str) (a : Artwork),
    (¬a.artist = [] → (inlineGo text seps a).1.artist = a.artist)
    ∧ (¬a.title = [] → (inlineGo text seps a).1.title = a.title)
    ∧ (¬a.year = [] → (inlineGo text seps a).1.year = a.year)
    ∧ (¬a.dimensions = [] → (inlineGo text seps a).1.dimensions = a.dimensions)
    ∧ (a.price.isSome = true → (inlineGo text seps a).1.price = a.price)
    ∧ (¬a.medium = [] → (inlineGo text seps a).1.medium = a.medium) := by
  intro seps
  induction seps with
  | nil =>
    exact fun text a =>
      ⟨fun _ => rfl, fun _ => rfl, fun _ => rfl, fun _ => rfl, fun _ => rfl, fun _ => rfl⟩
  | cons sep rest ih =>
    intro text a
    rw [inlineGo_cons]
    split
    · exact inlineAttempt_pres sep text a
    · obtain ⟨ia, it, iy, idim, ip, im⟩ := inlineAttempt_pres sep text a
      obtain ⟨ga, gt, gy, gd, gp, gm⟩ := ih text (inlineAttempt sep text a).1
      refine ⟨?_, ?_, ?_, ?_, ?_, ?_⟩ <;> intro h
      · rw [ga (by rw [ia h]; exact h), ia h]
      · rw [gt (by rw [it h]; exact h), it h]
      · rw [gy (by rw [iy h]; exact h), iy h]
      · rw [gd (by rw [idim h]; exact h), idim h]
      · rw [gp (by rw [ip h]; exact h), ip h]
      · rw [gm (by rw [im h]; exact h), im h]

lemma parseA_conf (t : Str) (a : Artwork) :
    (parse_artwork_linebreak_format t a).1.confidence_score
      = Rat.divInt (fieldsFound (parse_artwork_linebreak_format t a).1) 5 := by
  unfold parse_artwork_linebreak_format
  dsimp only
  exact congrArg (fun n : Nat => Rat.divInt n 5) (fieldsFound_set_confidence _ _).symm

lemma parseA_snd (t : Str) (a : Artwork) :
    (parse_artwork_linebreak_format t a).2
      = decide (Rat.divInt 6 10 < (parse_artwork_linebreak_format t a).1.confidence_score) := rfl

lemma parseA_true_iff (t : Str) (a : Artwork) :
    (parse_artwork_linebreak_format t a).2 = true
      ↔ Rat.divInt 6 10 < (parse_artwork_linebreak_format t a).1.confidence_score := by
  rw [parseA_snd]
  exact decide_eq_true_iff

lemma inlineAttempt_true (sep t : Str) (a : Artwork) :
    (inlineAttempt sep t a).2 = true →
      (inlineAttempt sep t a).1.confidence_score
        = Rat.divInt (fieldsFound (inlineAttempt sep t a).1) 5
      ∧ Rat.divInt 6 10 < (inlineAttempt sep t a).1.confidence_score := by
  unfold inlineAttempt
  dsimp only
  split
  · intro h
    refine ⟨?_, of_decide_eq_true h⟩
    exact congrArg (fun n : Nat => Rat.divInt n 5) (fieldsFound_set_confidence _ _).symm
  · intro h
    exact absurd h (by simp)

lemma inlineGo_true : ∀ (seps : List Str) (t : Str) (a : Artwork),
    (inlineGo t seps a).2 = true →
      (inlineGo t seps a).1.confidence_score
        = Rat.divInt (fieldsFound (inlineGo t seps a).1) 5
      ∧ Rat.divInt 6 10 < (inlineGo t seps a).1.confidence_score := by
  intro seps
  induction seps with
  | nil => intro t a h; exact absurd h (by simp [inlineGo])
  | cons sep rest ih =>
    intro t a
    rw [inlineGo_cons]
    split
    · rename_i hstep
      intro _
      exact inlineAttempt_true sep t a hstep
    · exact ih t (inlineAttempt sep t a).1

lemma extract_some (t : Str) (n : Nat) (img : Option ImageCandidate) (r : Artwork)
    (h : extract_artwork_info_from_text t n img = some r) :
    r.confidence_score = Rat.divInt (fieldsFound r) 5
    ∧ Rat.divInt 6 10 < r.confidence_score := by
  unfold extract_artwork_info_from_text at h
  dsimp only at h
  by_cases hA : (parse_artwork_linebreak_format t { page_number := n + 1 }).2 = true
  · rw [if_pos hA] at h
    have hr := Option.some.inj h
    subst hr
    obtain ⟨hc, hf, _⟩ := attachImage_keeps (parse_artwork_linebreak_format t { page_number := n + 1 }).1 img
    rw [hc, hf, parseA_conf]
    exact ⟨rfl, (parseA_true_iff t _).mp hA⟩
  · rw [if_neg hA] at h
    by_cases hB : (parse_artwork_inline_format t (parse_artwork_linebreak_format t { page_number := n + 1 }).1).2 = true
    · rw [if_pos hB] at h
      have hr := Option.some.inj h
      subst hr
      obtain ⟨hc, hf, _⟩ := attachImage_keeps
        (parse_artwork_inline_format t (parse_artwork_linebreak_format t { page_number := n + 1 }).1).1 img
      obtain ⟨hc2, hlt⟩ := inlineGo_true separators t (parse_artwork_linebreak_format t { page_number := n + 1 }).1 hB
      rw [hc, hf]
      exact ⟨hc2, hlt⟩
    · rw [if_neg hB] at h
      exact absurd h (by simp)

lemma mem_process_page (p : Page) (n : Nat) (r : Artwork) (h : r ∈ process_page p n) :
    ∃ (t : Str) (img : Option ImageCandidate),
      extract_artwork_info_from_text t n img = some r := by
  unfold process_page at h
  dsimp only at h
  split at h
  · simp at h
  · split at h
    · cases he : extract_artwork_info_from_text p.text n (extract_images p).head? with
      | none => rw [he] at h; simp at h
      | some x =>
        rw [he] at h
        simp at h
        exact ⟨p.text, (extract_images p).head?, by rw [he, h]⟩
    · split at h
      · obtain ⟨sec, hsec, hx⟩ := List.mem_filterMap.mp h
        exact ⟨sec.1, sec.2, hx⟩
      · simp at h

lemma extract_all_mem (doc : Doc) (r : Artwork) (h : r ∈ extract_all doc) :
    ∃ pe ∈ doc.pages.enum, r ∈ process_page pe.2 pe.1 := by
  unfold extract_all at h
  have key : ∀ (l : List (Nat × Page)) (init : List Artwork),
      r ∈ l.foldl (fun acc pe => acc ++ process_page pe.2 pe.1) init →
      r ∈ init ∨ ∃ pe ∈ l, r ∈ process_page pe.2 pe.1 := by
    intro l
    induction l with
    | nil => exact fun init h => Or.inl h
    | cons pe l ih =>
      intro init h
      rcases ih _ h with h' | ⟨pe', hpe', hr⟩
      · rcases List.mem_append.mp h' with h'' | h''
        · exact Or.inl h''
        · exact Or.inr ⟨pe, List.mem_cons_self pe l, h''⟩
      · exact Or.inr ⟨pe', List.mem_cons_of_mem _ hpe', hr⟩
  rcases key _ _ h with h' | h'
  · simp at h'
  · exact h'

lemma insertByAreaDesc_perm (x : ImageCandidate) :
    ∀ (l : List ImageCandidate), (insertByAreaDesc x l).Perm (x :: l) := by
  intro l
  induction l with
  | nil => exact List.Perm.refl _
  | cons y ys ih =>
    unfold insertByAreaDesc
    split
    · exact List.Perm.refl _
    · exact (List.Perm.cons y ih).trans (List.Perm.swap x y ys)

lemma sortByAreaDesc_perm : ∀ (l : List ImageCandidate), (sortByAreaDesc l).Perm l := by
  intro l
  induction l with
  | nil => exact List.Perm.refl _
  | cons x xs ih => exact (insertByAreaDesc_perm x _).trans (List.Perm.cons x ih)

lemma insertByAreaDesc_pairwise (x : ImageCandidate) :
    ∀ (l : List ImageCandidate), l.Pairwise (fun a b => area b ≤ area a) →
      (insertByAreaDesc x l).Pairwise (fun a b => area b ≤ area a) := by
  intro l
  induction l with
  | nil => intro _; simp [insertByAreaDesc]
  | cons y ys ih =>
    intro h
    unfold insertByAreaDesc
    split
    · rename_i hle
      refine List.Pairwise.cons ?_ h
      intro z hz
      rcases List.mem_cons.mp hz with rfl | hz'
      · exact hle
      · exact le_trans (List.rel_of_pairwise_cons h hz') hle
    · rename_i hgt
      have h1 := List.pairwise_cons.mp h
      refine List.Pairwise.cons ?_ (ih h1.2)
      intro z hz
      rcases List.mem_cons.mp ((insertByAreaDesc_perm x ys).mem_iff.mp hz) with rfl | hz'
      · exact le_of_lt (lt_of_not_le hgt)
      · exact h1.1 z hz'

lemma sortByAreaDesc_pairwise : ∀ (l : List ImageCandidate),
    (sortByAreaDesc l).Pairwise (fun a b => area b ≤ area a) := by
  intro l
  induction l with
  | nil => exact List.Pairwise.nil
  | cons x xs ih => exact insertByAreaDesc_pairwise x _ ih

lemma insertByAreaDesc_filter (x : ImageCandidate) (k : Nat) :
    ∀ (l : List ImageCandidate),
      (insertByAreaDesc x l).filter (fun i => area i == k)
        = if area x == k then x :: l.filter (fun i => area i == k)
          else l.filter (fun i => area i == k) := by
  intro l
  induction l with
  | nil =>
    by_cases hx : (area x == k) = true <;> simp [insertByAreaDesc, List.filter_cons, hx]
  | cons y ys ih =>
    unfold insertByAreaDesc
    split
    · rename_i hle
      rw [List.filter_cons]
    · rename_i hgt
      rw [List.filter_cons, ih]
      by_cases hx : (area x == k) = true
      · have hxk : area x = k := by simpa using hx
        have hlt : area x < area y := lt_of_not_le hgt
        have hyk : (area y == k) = false := by
          simp only [beq_eq_false_iff_ne, ne_eq]
          omega
        simp [hx, hyk, List.filter_cons]
      · simp [hx, List.filter_cons]

lemma sortByAreaDesc_filter (k : Nat) : ∀ (l : List ImageCandidate),
    (sortByAreaDesc l).filter (fun i => area i == k)
      = l.filter (fun i => area i == k) := by
  intro l
  induction l with
  | nil => rfl
  | cons x xs ih =>
    show (insertByAreaDesc x (sortByAreaDesc xs)).filter _ = _
    rw [insertByAreaDesc_filter, ih, List.filter_cons]

lemma except_bind_error {α β : Type} (e : DocumentOpenError)
    (g : α → Except DocumentOpenError β) :
    (Except.error e >>= g) = (Except.error e : Except DocumentOpenError β) := rfl

lemma except_bind_ok {α β : Type} (x : α) (g : α → Except DocumentOpenError β) :
    (Except.ok x >>= g) = g x := rfl

lemma divInt_six_ten : Rat.divInt 6 10 = (6/10 : ℚ) := by
  rw [Rat.divInt_eq_div]
  norm_num

lemma divInt_nat_five (n : Nat) : Rat.divInt (n : Int) 5 = (n : ℚ) / 5 := by
  rw [Rat.divInt_eq_div]
  norm_num

/-- C1: every record returned by `extract_all` — equivalently, any record on
which either parsing strategy reports success — has `confidence_score` equal
to the number of non-empty fields among title/artist/year/dimensions/medium
divided by 5. -/
theorem confidence_score_invariant :
    (∀ (doc : Doc) (r : Artwork), r ∈ extract_all doc →
      r.confidence_score = (fieldsFound r : ℚ) / 5)
    ∧ (∀ (text : Str) (a : Artwork), (parse_artwork_linebreak_format text a).2 = true →
      (parse_artwork_linebreak_format text a).1.confidence_score
        = (fieldsFound (parse_artwork_linebreak_format text a).1 : ℚ) / 5)
    ∧ (∀ (text : Str) (a : Artwork), (parse_artwork_inline_format text a).2 = true →
      (parse_artwork_inline_format text a).1.confidence_score
        = (fieldsFound (parse_artwork_inline_format text a).1 : ℚ) / 5) := by
  refine ⟨?_, ?_, ?_⟩
  · intro doc r hr
    obtain ⟨pe, _, hp⟩ := extract_all_mem doc r hr
    obtain ⟨t, img, hx⟩ := mem_process_page _ _ _ hp
    obtain ⟨hc, _⟩ := extract_some _ _ _ _ hx
    rw [hc, divInt_nat_five]
  · intro text a _
    rw [parseA_conf, divInt_nat_five]
  · intro text a h
    unfold parse_artwork_inline_format at h ⊢
    obtain ⟨hc, _⟩ := inlineGo_true separators text a h
    rw [hc, divInt_nat_five]

/-- C1 witness: the scenario-1 record extracted from `goodDoc`. -/
theorem confidence_score_invariant_witness :
    scenario1Record.confidence_score = (fieldsFound scenario1Record : ℚ) / 5 :=
  confidence_score_invariant.1 goodDoc scenario1Record (by decide)

/-- C9: every record `extractFields` returns has at least 4 of the 5 scored
fields non-empty, and its confidence score is exactly 0.8 or 1. -/
theorem returned_record_min_fields :
    ∀ (text : Str) (page_num : Nat) (image : Option ImageCandidate) (r : Artwork),
      extract_artwork_info_from_text text page_num image = some r →
        4 ≤ fieldsFound r
        ∧ (r.confidence_score = (8/10 : ℚ) ∨ r.confidence_score = 1) := by
  intro text pn img r h
  obtain ⟨hc, hlt⟩ := extract_some _ _ _ _ h
  have h5 := fieldsFound_le_five r
  rw [hc, divInt_six_ten, divInt_nat_five] at hlt
  have h4 : 3 < fieldsFound r := by
    by_contra hle
    push_neg at hle
    have hq : ((fieldsFound r : ℚ)) / 5 ≤ 3 / 5 := by
      gcongr
      exact_mod_cast hle
    have h610 : (6/10 : ℚ) = 3/5 := by norm_num
    rw [h610] at hlt
    exact absurd hlt (not_lt_of_le hq)
  refine ⟨by omega, ?_⟩
  have hcase : fieldsFound r = 4 ∨ fieldsFound r = 5 := by omega
  rcases hcase with h' | h'
  · left
    rw [hc, divInt_nat_five, h']
    norm_num
  · right
    rw [hc, divInt_nat_five, h']
    norm_num

/-- C9 witness: the scenario-3 record. -/
theorem returned_record_min_fields_witness :
    4 ≤ fieldsFound scenario3Record
    ∧ (scenario3Record.confidence_score = (8/10 : ℚ) ∨ scenario3Record.confidence_score = 1) :=
  returned_record_min_fields scenario3Text 0 none scenario3Record (by decide)

/-- C7: throughout field extraction — line scans, part scans, the
artist/title scan, one separator attempt, and the whole separator loop — a
field that is already non-empty is never overwritten (first match wins). -/
theorem field_first_match_wins :
    (∀ (a : Artwork) (line : Str),
      (lineFieldStep a line).artist = a.artist
      ∧ (lineFieldStep a line).title = a.title
      ∧ (¬a.year = [] → (lineFieldStep a line).year = a.year)
      ∧ (¬a.dimensions = [] → (lineFieldStep a line).dimensions = a.dimensions)
      ∧ (a.price.isSome = true → (lineFieldStep a line).price = a.price)
      ∧ (¬a.medium = [] → (lineFieldStep a line).medium = a.medium))
    ∧ (∀ (a : Artwork) (part : Str),
      (partFieldStep a part).artist = a.artist
      ∧ (partFieldStep a part).title = a.title
      ∧ (¬a.year = [] → (partFieldStep a part).year = a.year)
      ∧ (¬a.dimensions = [] → (partFieldStep a part).dimensions = a.dimensions)
      ∧ (a.price.isSome = true → (partFieldStep a part).price = a.price)
      ∧ (¬a.medium = [] → (partFieldStep a part).medium = a.medium))
    ∧ (∀ (lines : List Str) (a : Artwork) (fa ft : Bool),
      (fa = true → (scanArtistTitle lines a fa ft).1.artist = a.artist)
      ∧ (ft = true → (scanArtistTitle lines a fa ft).1.title = a.title)
      ∧ (scanArtistTitle lines a fa ft).1.year = a.year
      ∧ (scanArtistTitle lines a fa ft).1.dimensions = a.dimensions
      ∧ (scanArtistTitle lines a fa ft).1.price = a.price
      ∧ (scanArtistTitle lines a fa ft).1.medium = a.medium)
    ∧ (∀ (sep text : Str) (a : Artwork),
      (¬a.artist = [] → (inlineAttempt sep text a).1.artist = a.artist)
      ∧ (¬a.title = [] → (inlineAttempt sep text a).1.title = a.title)
      ∧ (¬a.year = [] → (inlineAttempt sep text a).1.year = a.year)
      ∧ (¬a.dimensions = [] → (inlineAttempt sep text a).1.dimensions = a.dimensions)
      ∧ (a.price.isSome = true → (inlineAttempt sep text a).1.price = a.price)
      ∧ (¬a.medium = [] → (inlineAttempt sep text a).1.medium = a.medium))
    ∧ (∀ (seps : List Str) (text : Str) (a : Artwork),
      (¬a.artist = [] → (inlineGo text seps a).1.artist = a.artist)
      ∧ (¬a.title = [] → (inlineGo text seps a).1.title = a.title)
      ∧ (¬a.year = [] → (inlineGo text seps a).1.year = a.year)
      ∧ (¬a.dimensions = [] → (inlineGo text seps a).1.dimensions = a.dimensions)
      ∧ (a.price.isSome = true → (inlineGo text seps a).1.price = a.price)
      ∧ (¬a.medium = [] → (inlineGo text seps a).1.medium = a.medium)) := by
  refine ⟨?_, ?_, ?_, ?_, ?_⟩
  · intro a line
    exact ⟨lineFieldStep_artist a line, lineFieldStep_title a line,
      lineFieldStep_year a line, lineFieldStep_dimensions a line,
      lineFieldStep_price a line, lineFieldStep_medium a line⟩
  · intro a part
    exact ⟨partFieldStep_artist a part, partFieldStep_title a part,
      partFieldStep_year a part, partFieldStep_dimensions a part,
      partFieldStep_price a part, partFieldStep_medium a part⟩
  · intro lines a fa ft
    obtain ⟨hy, hd, hm, hp, ha, ht⟩ := scanArtistTitle_pres lines a fa ft
    exact ⟨ha, ht, hy, hd, hp, hm⟩
  · exact inlineAttempt_pres
  · exact inlineGo_pres

/-- C7 witness: a non-empty year survives a line scan step. -/
theorem field_first_match_wins_witness :
    (lineFieldStep scenario1Record ("in 2022".toList)).year = scenario1Record.year :=
  (field_first_match_wins.1 scenario1Record ("in 2022".toList)).2.2.1 (by decide)

/-- C10: a separator attempt that fails the threshold is not rolled back —
the loop continues on the mutated record, and later attempts only fill
fields that are still empty. -/
theorem inline_failed_attempt_persists :
    (∀ (sep : Str) (rest : List Str) (text : Str) (a a' : Artwork),
      inlineAttempt sep text a = (a', false) →
        inlineGo text (sep :: rest) a = inlineGo text rest a')
    ∧ (∀ (seps : List Str) (text : Str) (a : Artwork),
      (¬a.artist = [] → (inlineGo text seps a).1.artist = a.artist)
      ∧ (¬a.title = [] → (inlineGo text seps a).1.title = a.title)
      ∧ (¬a.year = [] → (inlineGo text seps a).1.year = a.year)
      ∧ (¬a.dimensions = [] → (inlineGo text seps a).1.dimensions = a.dimensions)
      ∧ (a.price.isSome = true → (inlineGo text seps a).1.price = a.price)
      ∧ (¬a.medium = [] → (inlineGo text seps a).1.medium = a.medium)) := by
  constructor
  · intro sep rest text a a' h
    rw [inlineGo_cons, h]
    simp
  · exact inlineGo_pres

/-- C10 witness: the comma attempt on `"aa, bb, cc"` fails yet its artist and
title assignments persist into the rest of the separator loop. -/
theorem inline_failed_attempt_persists_witness :
    inlineGo c10Text ([','] :: [['|']]) {} = inlineGo c10Text [['|']] c10After :=
  inline_failed_attempt_persists.1 [','] [['|']] c10Text {} c10After (by decide)

/-- C6 counterexample: on the scenario-3 text Strategy A fails the threshold
(so Strategy B runs on the same record), yet the record's artist is already
non-empty at that moment — the claim that artist and title are still empty
when Strategy B starts is false. -/
theorem inline_start_nonempty_counterexample :
    (parse_artwork_linebreak_format scenario3Text { page_number := 1 }).2 = false
    ∧ ¬(parse_artwork_linebreak_format scenario3Text { page_number := 1 }).1.artist = [] := by
  decide

/-- C6 amended: when a separator attempt proceeds (≥ 3 parts), the first part
is assigned to artist and the second to title only if those fields are still
empty; fields already set (possibly by Strategy A) persist. -/
theorem inline_artist_title_guarded :
    ∀ (sep text : Str) (a : Artwork),
      3 ≤ (((splitSep sep text).map strip).filter (fun p => !p.isEmpty)).length →
        (inlineAttempt sep text a).1.artist
          = (if a.artist.isEmpty
             then (((splitSep sep text).map strip).filter (fun p => !p.isEmpty)).getD 0 []
             else a.artist)
        ∧ (inlineAttempt sep text a).1.title
          = (if a.title.isEmpty
             then (((splitSep sep text).map strip).filter (fun p => !p.isEmpty)).getD 1 []
             else a.title) := by
  intro sep text a h
  unfold inlineAttempt
  dsimp only
  rw [if_pos h]
  constructor
  · exact ((foldl_partFieldStep_pres _ _).1).trans
      (((updTitleSecond_misc _ _).1).trans (updArtistFirst_artist _ _))
  · have hXt : (updArtistFirst a (((splitSep sep text).map strip).filter (fun p => !p.isEmpty))).title
        = a.title := (updArtistFirst_misc _ _).1
    calc ((((splitSep sep text).map strip).filter (fun p => !p.isEmpty)).drop 2
            |>.foldl partFieldStep
              (updTitleSecond
                (updArtistFirst a (((splitSep sep text).map strip).filter (fun p => !p.isEmpty)))
                (((splitSep sep text).map strip).filter (fun p => !p.isEmpty)))).title
        = (updTitleSecond
            (updArtistFirst a (((splitSep sep text).map strip).filter (fun p => !p.isEmpty)))
            (((splitSep sep text).map strip).filter (fun p => !p.isEmpty))).title :=
          (foldl_partFieldStep_pres _ _).2.1
      _ = if (updArtistFirst a (((splitSep sep text).map strip).filter (fun p => !p.isEmpty))).title.isEmpty
          then (((splitSep sep text).map strip).filter (fun p => !p.isEmpty)).getD 1 []
          else (updArtistFirst a (((splitSep sep text).map strip).filter (fun p => !p.isEmpty))).title :=
          updTitleSecond_title _ _
      _ = if a.title.isEmpty
          then (((splitSep sep text).map strip).filter (fun p => !p.isEmpty)).getD 1 []
          else a.title := by rw [hXt]

/-- C6 amended witness. -/
theorem inline_artist_title_guarded_witness :
    (inlineAttempt [','] c10Text {}).1.artist
      = (if ({} : Artwork).artist.isEmpty
         then (((splitSep [','] c10Text).map strip).filter (fun p => !p.isEmpty)).getD 0 []
         else ({} : Artwork).artist) :=
  (inline_artist_title_guarded [','] c10Text {} (by decide)).1

/-- C5 counterexample: on the scenario-3 text the extractor does return a
record via Strategy B on the comma separator, but its artist field is the
entire input line (left over from Strategy A), not `"Mary Smith"`. -/
theorem scenario3_artist_counterexample :
    (extract_artwork_info_from_text scenario3Text 0 none).map Artwork.artist
      = some scenario3Text
    ∧ ¬scenario3Text = "Mary Smith".toList := by
  decide

/-- C5 amended: Strategy A fails the threshold on the scenario-3 text (after
setting artist to the whole line plus year and dimensions), then Strategy B
succeeds on the comma separator with title `"Blue Horizon"`,
medium `"acrylic on canvas"`, year `"2021"`, dimensions `"30x40 cm"` —
but artist remains the entire input line. -/
theorem scenario3_amended :
    (parse_artwork_linebreak_format scenario3Text { page_number := 1 }).2 = false
    ∧ (inlineAttempt [','] scenario3Text
        (parse_artwork_linebreak_format scenario3Text { page_number := 1 }).1).2 = true
    ∧ extract_artwork_info_from_text scenario3Text 0 none = some scenario3Record := by
  decide

/-- C2: the extractor tries Strategy A first; it succeeds exactly when its
confidence score exceeds 0.6, in which case Strategy B is never invoked and
the (image-attached) Strategy-A record is returned; when Strategy A fails,
Strategy B is invoked on the same record, and the result is `none` exactly
when both strategies fail. -/
theorem extract_strategy_order :
    ∀ (text : Str) (page_num : Nat) (image : Option ImageCandidate),
      (extract_artwork_info_from_text_traced text page_num image).1
        = extract_artwork_info_from_text text page_num image
      ∧ ((parse_artwork_linebreak_format text { page_number := page_num + 1 }).2 = true ↔
          (6/10 : ℚ) < (parse_artwork_linebreak_format text
            { page_number := page_num + 1 }).1.confidence_score)
      ∧ ((parse_artwork_linebreak_format text { page_number := page_num + 1 }).2 = true →
          extract_artwork_info_from_text_traced text page_num image
            = (some (attachImage
                (parse_artwork_linebreak_format text { page_number := page_num + 1 }).1 image),
               false))
      ∧ ((parse_artwork_linebreak_format text { page_number := page_num + 1 }).2 = false →
          (extract_artwork_info_from_text_traced text page_num image).2 = true
          ∧ extract_artwork_info_from_text text page_num image
            = (if (parse_artwork_inline_format text
                    (parse_artwork_linebreak_format text { page_number := page_num + 1 }).1).2
               then some (attachImage
                  (parse_artwork_inline_format text
                    (parse_artwork_linebreak_format text { page_number := page_num + 1 }).1).1 image)
               else none))
      ∧ (extract_artwork_info_from_text text page_num image = none ↔
          ((parse_artwork_linebreak_format text { page_number := page_num + 1 }).2 = false
           ∧ (parse_artwork_inline_format text
               (parse_artwork_linebreak_format text { page_number := page_num + 1 }).1).2 = false)) := by
  intro text pn img
  by_cases hA : (parse_artwork_linebreak_format text { page_number := pn + 1 }).2 = true
  · refine ⟨?_, ?_, ?_, ?_, ?_⟩
    · simp [extract_artwork_info_from_text, extract_artwork_info_from_text_traced, hA]
    · rw [← divInt_six_ten]
      exact parseA_true_iff text _
    · intro _
      simp [extract_artwork_info_from_text_traced, hA]
    · intro hA'
      rw [hA] at hA'
      exact absurd hA' (by simp)
    · constructor
      · intro hnone
        exfalso
        simp [extract_artwork_info_from_text, hA] at hnone
      · intro h'
        rw [h'.1] at hA
        exact absurd hA (by simp)
  · have hAf : (parse_artwork_linebreak_format text { page_number := pn + 1 }).2 = false := by
      revert hA
      cases (parse_artwork_linebreak_format text { page_number := pn + 1 }).2 <;> simp
    refine ⟨?_, ?_, ?_, ?_, ?_⟩
    · by_cases hB : (parse_artwork_inline_format text
          (parse_artwork_linebreak_format text { page_number := pn + 1 }).1).2 = true
      · simp [extract_artwork_info_from_text, extract_artwork_info_from_text_traced, hAf, hB]
      · simp [extract_artwork_info_from_text, extract_artwork_info_from_text_traced, hAf, hB]
    · rw [← divInt_six_ten]
      exact parseA_true_iff text _
    · intro hA'
      rw [hA'] at hAf
      exact absurd hAf (by simp)
    · intro _
      constructor
      · simp [extract_artwork_info_from_text_traced, hAf]
      · by_cases hB : (parse_artwork_inline_format text
            (parse_artwork_linebreak_format text { page_number := pn + 1 }).1).2 = true
        · simp [extract_artwork_info_from_text, hAf, hB]
        · simp [extract_artwork_info_from_text, hAf, hB]
    · by_cases hB : (parse_artwork_inline_format text
          (parse_artwork_linebreak_format text { page_number := pn + 1 }).1).2 = true
      · simp [extract_artwork_info_from_text, hAf, hB]
      · constructor
        · intro _
          refine ⟨hAf, ?_⟩
          revert hB
          cases (parse_artwork_inline_format text
            (parse_artwork_linebreak_format text { page_number := pn + 1 }).1).2 <;> simp
        · intro _
          simp [extract_artwork_info_from_text, hAf, hB]

/-- C2 witness: on the scenario-3 text Strategy A fails, so the instrumented
extractor reports that Strategy B was invoked. -/
theorem extract_strategy_order_witness :
    (extract_artwork_info_from_text_traced scenario3Text 0 none).2 = true :=
  ((extract_strategy_order scenario3Text 0 none).2.2.2.1 (by decide)).1

/-- C3: the page classifier skips a page — producing no records with the
field extractor never invoked — exactly when the retained image list is
empty, or the text exceeds 2000 characters with fewer than 2 retained
images; in particular a page with zero raw images is always skipped. -/
theorem classifier_skip_iff :
    ∀ (pg : Page) (page_num : Nat),
      ((process_page_traced pg page_num).2 = false ↔
        (extract_images pg = []
         ∨ (2000 < pg.text.length ∧ (extract_images pg).length < 2)))
      ∧ (process_page_traced pg page_num).1 = process_page pg page_num
      ∧ ((process_page_traced pg page_num).2 = false → process_page pg page_num = [])
      ∧ (pg.images = [] →
          (process_page_traced pg page_num).2 = false ∧ process_page pg page_num = []) := by
  intro pg n
  have hzero : pg.images = [] → extract_images pg = [] := by
    intro h
    unfold extract_images
    rw [h]
    rfl
  by_cases h1 : ((extract_images pg).isEmpty
      || (decide (2000 < pg.text.length) && decide ((extract_images pg).length < 2))) = true
  · have e1 : process_page_traced pg n = ([], false) := by
      unfold process_page_traced
      dsimp only
      rw [if_pos h1]
    have e2 : process_page pg n = [] := by
      unfold process_page
      dsimp only
      rw [if_pos h1]
    refine ⟨?_, ?_, ?_, ?_⟩
    · rw [e1]
      constructor
      · intro _
        simpa [List.isEmpty_iff] using h1
      · intro _
        rfl
    · rw [e1, e2]
    · intro _
      exact e2
    · intro _
      exact ⟨by rw [e1], e2⟩
  · have hne : ¬(extract_images pg = []
        ∨ (2000 < pg.text.length ∧ (extract_images pg).length < 2)) := by
      simpa [List.isEmpty_iff] using h1
    have hlen : 1 ≤ (extract_images pg).length := by
      have hnil : ¬extract_images pg = [] := fun hh => hne (Or.inl hh)
      cases hcase : extract_images pg with
      | nil => exact absurd hcase hnil
      | cons x xs => simp [hcase]
    have htr : (process_page_traced pg n).2 = true := by
      unfold process_page_traced
      dsimp only
      rw [if_neg h1]
      by_cases h2 : ((extract_images pg).length == 1
          || (decide (0 < (extract_images pg).length) && is_main_artwork_page pg.text)) = true
      · rw [if_pos h2]
      · rw [if_neg h2]
        have h3 : 1 < (extract_images pg).length := by
          rcases Nat.lt_or_ge (extract_images pg).length 2 with hlt | hge
          · have hl1 : (extract_images pg).length = 1 := by omega
            exfalso
            apply h2
            simp [hl1]
          · omega
        rw [if_pos h3]
        cases hcase : extract_images pg with
        | nil =>
          rw [hcase] at hlen
          simp at hlen
        | cons x xs =>
          unfold split_page_into_sections
          simp
    refine ⟨?_, ?_, ?_, ?_⟩
    · rw [htr]
      constructor
      · intro hf
        exact absurd hf (by simp)
      · intro hp
        exact absurd hp hne
    · unfold process_page_traced process_page
      dsimp only
      rw [if_neg h1, if_neg h1]
      split
      · rfl
      · split <;> rfl
    · intro hf
      rw [hf] at htr
      exact Bool.noConfusion htr
    · intro h0
      exfalso
      exact hne (Or.inl (hzero h0))

/-- C3 witness: a page with zero images is skipped and yields no records. -/
theorem classifier_skip_iff_witness :
    (process_page_traced noImagePage 0).2 = false ∧ process_page noImagePage 0 = [] :=
  (classifier_skip_iff noImagePage 0).2.2.2 (by decide)

/-- C4: the image selector returns exactly the candidates whose width and
height both exceed 100 px, sorted by pixel area descending, with equal-area
candidates kept in their original enumeration order (stable sort); no
too-small candidate ever appears. -/
theorem image_selector_spec :
    ∀ (pg : Page),
      (extract_images pg).Perm
        (pg.images.filter (fun i => 100 < i.width && 100 < i.height))
      ∧ (extract_images pg).Pairwise (fun a b => b.width * b.height ≤ a.width * a.height)
      ∧ (∀ k : Nat, (extract_images pg).filter (fun i => i.width * i.height == k)
          = (pg.images.filter (fun i => 100 < i.width && 100 < i.height)).filter
              (fun i => i.width * i.height == k))
      ∧ (∀ i, i ∈ extract_images pg → 100 < i.width ∧ 100 < i.height) := by
  intro pg
  refine ⟨?_, ?_, ?_, ?_⟩
  · exact sortByAreaDesc_perm _
  · exact sortByAreaDesc_pairwise _
  · intro k
    exact sortByAreaDesc_filter k _
  · intro i hi
    unfold extract_images at hi
    dsimp only at hi
    have hmem := (sortByAreaDesc_perm _).mem_iff.mp hi
    have hcond := List.of_mem_filter hmem
    simpa using hcond

/-- C4 witness: the multi-image page instance. -/
theorem image_selector_spec_witness :
    100 < (ImageCandidate.mk 2 300 300).width ∧ 100 < (ImageCandidate.mk 2 300 300).height :=
  (image_selector_spec multiImagePage).2.2.2 (ImageCandidate.mk 2 300 300) (by decide)

/-- C8 counterexample: a batch of two documents where the first yields one
record and the second fails to open — the whole batch aborts with the open
error, so the batch neither continues nor returns the earlier record,
contradicting the claim. -/
theorem batch_abort_counterexample :
    process_pdf_files openEnvEx ["good".toList, "bad".toList]
      = Except.error DocumentOpenError.openFailed
    ∧ extract_all goodDoc = [scenario1Record] := by
  constructor
  · rfl
  · decide

/-- C8 amended: if opening any document fails, the exception propagates out
of `process_pdf_files`: the entire batch aborts with that error (documents
after the failing one are never processed and no records are returned). -/
theorem open_error_aborts_batch :
    ∀ (openDoc : Str → Except DocumentOpenError Doc) (pre post : List Str)
      (f : Str) (e : DocumentOpenError),
      (∀ g ∈ pre, ∃ d, openDoc g = Except.ok d) →
      openDoc f = Except.error e →
      process_pdf_files openDoc (pre ++ f :: post) = Except.error e := by
  intro openDoc pre post f e hpre hf
  unfold process_pdf_files
  have aux : ∀ (l : List Str) (init : List Artwork),
      (∀ g ∈ l, ∃ d, openDoc g = Except.ok d) →
      List.foldlM (fun all_artworks file_path => do
        let doc ← openDoc file_path
        pure (all_artworks ++ extract_all doc)) init (l ++ f :: post)
        = Except.error e := by
    intro l
    induction l with
    | nil =>
      intro init _
      rw [List.nil_append, List.foldlM_cons, hf]
      rfl
    | cons g l ih =>
      intro init hall
      obtain ⟨d, hd⟩ := hall g (List.mem_cons_self g l)
      rw [List.cons_append, List.foldlM_cons, hd]
      have hrest : ∀ g' ∈ l, ∃ d', openDoc g' = Except.ok d' :=
        fun g' hg' => hall g' (List.mem_cons_of_mem _ hg')
      calc (Except.ok d >>= fun doc =>
              pure (init ++ extract_all doc)) >>= (fun b => List.foldlM _ b (l ++ f :: post))
          = List.foldlM (fun all_artworks file_path => do
              let doc ← openDoc file_path
              pure (all_artworks ++ extract_all doc)) (init ++ extract_all d) (l ++ f :: post) := rfl
        _ = Except.error e := ih (init ++ extract_all d) hrest
  exact aux pre [] hpre

/-- C8 amended witness. -/
theorem open_error_aborts_batch_witness :
    process_pdf_files openEnvEx (["good".toList] ++ "bad".toList :: [])
      = Except.error DocumentOpenError.openFailed :=
  open_error_aborts_batch openEnvEx ["good".toList] [] "bad".toList
    DocumentOpenError.openFailed
    (fun g hg => ⟨goodDoc, by
      have hgg : g = "good".toList := by simpa using hg
      rw [hgg]
      rfl⟩)
    rfl

end PdfArtwork
